import Mathlib

/-!
Verification of the S3-to-Rekognition-to-DynamoDB ingestion lambda.

Shallow embedding of `terraform/python/lambda_index.py` (`lambda_handler`).

Modelling decisions:
* The inbound event is a JSON-shaped object.  We model exactly the fields the
  handler reads; each is an `Option`, and reading a missing field raises the
  Python `KeyError` (dict subscript) or `IndexError` (`records[0]` on an empty
  list), embedded as an `Outcome.raised` value.  The nested paths
  `record['s3']['bucket']['name']` and `record['s3']['object']['key']` are
  collapsed into single optional fields (`none` = some level of the path is
  missing, so the subscript chain raises).
* The three AWS collaborators are oracles in an `Env`:
  `meta` is `s3_client.Object(bucket, key).metadata` (the HEAD request that the
  first `.metadata` access performs), `indexFaces` is
  `rekognition_client.index_faces` restricted to its data-dependent arguments
  `(Bucket, Name/ExternalImageId)` — `CollectionId`, `DetectionAttributes`,
  `MaxFaces` and `QualityFilter` are process-wide constants and do not vary
  per call.  Either oracle may raise a boto3 exception, embedded as a
  `SvcExc` kind; the `try/except` ladder of lines 118-149 catches by kind.
* `dynamodb_table.put_item` calls are recorded in an event trace (`CallEv`)
  together with the metadata fetches and the recognition invocations, so that
  theorems can speak about which calls were issued.
* JSON numbers are carried as decimal literals `mant * 10^(-exp)`; the
  round-trip `json.loads(json.dumps(face), parse_float=Decimal)` maps every
  float literal to a `Decimal` with the same digits and leaves strings,
  integers and object structure unchanged (`FaceVal.toDec`).
* Python `str.replace(old, new)` replaces every non-overlapping occurrence
  left to right; `pyReplaceAmz` implements exactly that for the fixed pattern
  `"x-amz-meta-"`.  `urllib.parse.unquote_plus` is modelled at the byte level
  for single-byte code points: `+` becomes a space and `%XX` (two hex digits)
  becomes the character with that code.
-/

/-- A boto3 service exception, classified by the kinds the handler's
`except` ladder distinguishes.  `other` is any exception not named there
(caught by `except Exception as e: raise e`). -/
inductive SvcExc where
  | invalidS3Object
  | invalidParameter
  | imageTooLarge
  | accessDenied
  | internalServerError
  | throttling
  | provisionedThroughputExceeded
  | resourceNotFound
  | invalidImageFormat
  | serviceQuotaExceeded
  | other
deriving DecidableEq, Repr

/-- An uncaught Python exception escaping `lambda_handler`. -/
inductive PyExc where
  | keyError
  | indexError
  | svcOther
deriving DecidableEq, Repr

/-- The `{'statusCode': ..., 'data': ...}` dict the handler returns.
In the source `data` is always `None`. -/
structure LambdaResponse where
  statusCode : Nat
  data : Option String
deriving DecidableEq, Repr

/-- How one invocation of `lambda_handler` terminates: an explicitly
returned response dict, the implicit Python `None` (the source has no
return statement after the `for record in records:` loop, so the
all-success path falls off the end of the function), or an uncaught
exception propagating to the runtime. -/
inductive Outcome where
  | ret (r : LambdaResponse)
  | retNone
  | raised (e : PyExc)
deriving DecidableEq, Repr

mutual
/-- A JSON value as it appears inside a Rekognition `Face` object:
strings, integer literals, float literals (decimal digits `mant`/`exp`
meaning `mant * 10^(-exp)`), `Decimal` values produced by
`parse_float=Decimal`, and nested objects. -/
inductive FaceVal where
  | s (v : String)
  | i (n : Int)
  | fl (mant : Int) (exp : Nat)
  | dec (mant : Int) (exp : Nat)
  | obj (fields : FaceFields)
/-- The ordered key/value fields of a JSON object (Python dicts preserve
insertion order). -/
inductive FaceFields where
  | nil
  | cons (k : String) (v : FaceVal) (tail : FaceFields)
end

mutual
def decEqFaceVal : (a b : FaceVal) → Decidable (a = b)
  | .s x, .s y =>
    match String.decEq x y with
    | isTrue h => isTrue (by rw [h])
    | isFalse h => isFalse (by intro hh; cases hh; exact h rfl)
  | .i x, .i y =>
    match decEq x y with
    | isTrue h => isTrue (by rw [h])
    | isFalse h => isFalse (by intro hh; cases hh; exact h rfl)
  | .fl m1 e1, .fl m2 e2 =>
    match decEq m1 m2, decEq e1 e2 with
    | isTrue h1, isTrue h2 => isTrue (by rw [h1, h2])
    | isFalse h1, _ => isFalse (by intro hh; cases hh; exact h1 rfl)
    | _, isFalse h2 => isFalse (by intro hh; cases hh; exact h2 rfl)
  | .dec m1 e1, .dec m2 e2 =>
    match decEq m1 m2, decEq e1 e2 with
    | isTrue h1, isTrue h2 => isTrue (by rw [h1, h2])
    | isFalse h1, _ => isFalse (by intro hh; cases hh; exact h1 rfl)
    | _, isFalse h2 => isFalse (by intro hh; cases hh; exact h2 rfl)
  | .obj f1, .obj f2 =>
    match decEqFaceFields f1 f2 with
    | isTrue h => isTrue (by rw [h])
    | isFalse h => isFalse (by intro hh; cases hh; exact h rfl)
  | .s _, .i _ => isFalse (by intro h; cases h)
  | .s _, .fl _ _ => isFalse (by intro h; cases h)
  | .s _, .dec _ _ => isFalse (by intro h; cases h)
  | .s _, .obj _ => isFalse (by intro h; cases h)
  | .i _, .s _ => isFalse (by intro h; cases h)
  | .i _, .fl _ _ => isFalse (by intro h; cases h)
  | .i _, .dec _ _ => isFalse (by intro h; cases h)
  | .i _, .obj _ => isFalse (by intro h; cases h)
  | .fl _ _, .s _ => isFalse (by intro h; cases h)
  | .fl _ _, .i _ => isFalse (by intro h; cases h)
  | .fl _ _, .dec _ _ => isFalse (by intro h; cases h)
  | .fl _ _, .obj _ => isFalse (by intro h; cases h)
  | .dec _ _, .s _ => isFalse (by intro h; cases h)
  | .dec _ _, .i _ => isFalse (by intro h; cases h)
  | .dec _ _, .fl _ _ => isFalse (by intro h; cases h)
  | .dec _ _, .obj _ => isFalse (by intro h; cases h)
  | .obj _, .s _ => isFalse (by intro h; cases h)
  | .obj _, .i _ => isFalse (by intro h; cases h)
  | .obj _, .fl _ _ => isFalse (by intro h; cases h)
  | .obj _, .dec _ _ => isFalse (by intro h; cases h)
def decEqFaceFields : (a b : FaceFields) → Decidable (a = b)
  | .nil, .nil => isTrue rfl
  | .nil, .cons _ _ _ => isFalse (by intro h; cases h)
  | .cons _ _ _, .nil => isFalse (by intro h; cases h)
  | .cons k1 v1 t1, .cons k2 v2 t2 =>
    match String.decEq k1 k2, decEqFaceVal v1 v2, decEqFaceFields t1 t2 with
    | isTrue h1, isTrue h2, isTrue h3 => isTrue (by rw [h1, h2, h3])
    | isFalse h1, _, _ => isFalse (by intro hh; cases hh; exact h1 rfl)
    | _, isFalse h2, _ => isFalse (by intro hh; cases hh; exact h2 rfl)
    | _, _, isFalse h3 => isFalse (by intro hh; cases hh; exact h3 rfl)
end

instance : DecidableEq FaceVal := decEqFaceVal

instance : DecidableEq FaceFields := decEqFaceFields

/-- Python dict subscript assignment `d[k] = v`: update in place when the key
exists (keeping its position), append otherwise. -/
def FaceFields.set : FaceFields → String → FaceVal → FaceFields
  | .nil, k, v => .cons k v .nil
  | .cons k' v' t, k, v =>
    if k' = k then .cons k' v t else .cons k' v' (t.set k v)

/-- Python dict subscript read `d[k]` (as an `Option`). -/
def FaceFields.get : FaceFields → String → Option FaceVal
  | .nil, _ => none
  | .cons k' v t, k => if k' = k then some v else t.get k

mutual
/-- Semantics of `json.loads(json.dumps(x), parse_float=Decimal)`: every float literal
becomes a `Decimal` with the same decimal digits; everything else is kept. -/
def FaceVal.toDec : FaceVal → FaceVal
  | .s v => .s v
  | .i n => .i n
  | .fl m e => .dec m e
  | .dec m e => .dec m e
  | .obj fs => .obj fs.toDec
/-- Mapping `FaceVal.toDec` over all fields of an object. -/
def FaceFields.toDec : FaceFields → FaceFields
  | .nil => .nil
  | .cons k v t => .cons k v.toDec t.toDec
end

mutual
/-- Returns `true` iff the value contains no float literal (everything numeric is
already fixed-point `Decimal` or integer). -/
def FaceVal.noFloat : FaceVal → Bool
  | .s _ => true
  | .i _ => true
  | .fl _ _ => false
  | .dec _ _ => true
  | .obj fs => fs.noFloat
/-- Conjunction of `FaceVal.noFloat` over all fields of an object. -/
def FaceFields.noFloat : FaceFields → Bool
  | .nil => true
  | .cons _ v t => v.noFloat && t.noFloat
end

/-- One element of `faces["FaceRecords"]`; the handler only reads its
`"Face"` member. -/
structure FaceRecord where
  Face : FaceFields
deriving DecidableEq

/-- One entry of `event["Records"]`, restricted to the fields the handler
reads.  `s3BucketName` stands for the path `['s3']['bucket']['name']` and
`s3ObjectKey` for `['s3']['object']['key']`; `none` means the subscript
chain raises `KeyError`. -/
structure S3Record where
  eventSource : Option String
  eventName : Option String
  s3BucketName : Option String
  s3ObjectKey : Option String
deriving DecidableEq

/-- The inbound lambda event: `none` when the `"Records"` key is absent. -/
structure Event where
  Records : Option (List S3Record)
deriving DecidableEq

/-- One observable call to a collaborator during a run. -/
inductive CallEv where
  | metaFetch (bucket key : String)
  | recognize (bucket key : String)
  | put (item : FaceFields)
deriving DecidableEq

/-- The external collaborators, as oracles.  `maxFaces` is the process-wide
`MAX_FACES` configuration passed to every recognition call. -/
structure Env where
  meta : String → String → Except SvcExc (List (String × String))
  indexFaces : String → String → Except SvcExc (List FaceRecord)
  maxFaces : Nat

/-- Hex digit value, as `urllib.parse` accepts it (both cases). -/
def hexVal (c : Char) : Option Nat :=
  if '0' ≤ c ∧ c ≤ '9' then some (c.toNat - '0'.toNat)
  else if 'a' ≤ c ∧ c ≤ 'f' then some (c.toNat - 'a'.toNat + 10)
  else if 'A' ≤ c ∧ c ≤ 'F' then some (c.toNat - 'A'.toNat + 10)
  else none

/-- Model of `urllib.parse.unquote_plus` on characters: `+` → space, `%XX` with two
hex digits → the character with code `XX`, anything else kept (single-byte
code points; the keys in play are ASCII). -/
def unquotePlusChars : List Char → List Char
  | [] => []
  | '+' :: rest => ' ' :: unquotePlusChars rest
  | '%' :: a :: b :: rest =>
    match hexVal a, hexVal b with
    | some ha, some hb => Char.ofNat (16 * ha + hb) :: unquotePlusChars rest
    | _, _ => '%' :: unquotePlusChars (a :: b :: rest)
  | c :: rest => c :: unquotePlusChars rest

/-- The call `unquote_plus(record['s3']['object']['key'], encoding='utf-8')` of line 79. -/
def unquote_plus (s : String) : String :=
  ⟨unquotePlusChars s.data⟩

/-- The fixed pattern of lines 82 and 106. -/
def amzPat : List Char := "x-amz-meta-".data

/-- Python `s.replace("x-amz-meta-", "")` on characters, with an explicit
fuel argument for structural recursion: remove every non-overlapping
occurrence of the pattern, scanning left to right.  Each step consumes at
least one character of the list and one unit of fuel, so fuel equal to the
list length (as supplied by `replaceAmzChars`) always suffices and the
fuel-exhausted branch is unreachable. -/
def replaceAmzCharsAux : Nat → List Char → List Char
  | 0, s => s
  | _ + 1, [] => []
  | fuel + 1, c :: rest =>
    if amzPat.isPrefixOf (c :: rest) then
      replaceAmzCharsAux fuel ((c :: rest).drop 11)
    else
      c :: replaceAmzCharsAux fuel rest

/-- Python `s.replace("x-amz-meta-", "")` on characters: remove every
non-overlapping occurrence of the pattern, scanning left to right. -/
def replaceAmzChars (s : List Char) : List Char :=
  replaceAmzCharsAux s.length s

/-- Model of `key.replace("x-amz-meta-", "")` (Python `str.replace`: all
occurrences). -/
def pyReplaceAmz (s : String) : String :=
  ⟨replaceAmzChars s.data⟩

/-- Python dict-comprehension insert: `{f(k): v for k in d}` updates an
existing stripped key in place, else appends. -/
def dictInsert : List (String × String) → String → String → List (String × String)
  | [], k, v => [(k, v)]
  | (k', v') :: rest, k, v =>
    if k' = k then (k', v) :: rest else (k', v') :: dictInsert rest k v

/-- The comprehension `{key.replace("x-amz-meta-", ""): d[key] for key in
d.keys()}` of lines 82 and 106. -/
def stripMeta (d : List (String × String)) : List (String × String) :=
  d.foldl (fun acc kv => dictInsert acc (pyReplaceAmz kv.1) kv.2) []

/-- Association list to a JSON object of string values (the
`face["metadata"] = metadata` assignment of line 114). -/
def metaToFields : List (String × String) → FaceFields
  | [] => .nil
  | (k, v) :: rest => .cons k (.s v) (metaToFields rest)

/-- The body of the `for face in faces["FaceRecords"]` loop (lines 110-116):
`face = face["Face"]`, attach bucket, key and metadata, then the
`json` round-trip with `parse_float=Decimal`.  The result is the `Item`
given to `put_item`. -/
def putItemOf (fr : FaceRecord) (bucket key : String)
    (metadata : List (String × String)) : FaceFields :=
  ((((fr.Face.set "bucket" (.s bucket)).set "key" (.s key)).set
      "metadata" (.obj (metaToFields metadata))).toDec)

/-- The `except` ladder of lines 118-149: each named Rekognition exception
kind maps to a returned status code; `InvalidParameterException` (no face
detected) returns 200; any other exception is re-raised. -/
def classifyExc : SvcExc → Outcome
  | .invalidS3Object => .ret ⟨406, none⟩
  | .invalidParameter => .ret ⟨200, none⟩
  | .imageTooLarge => .ret ⟨406, none⟩
  | .accessDenied => .ret ⟨403, none⟩
  | .internalServerError => .ret ⟨500, none⟩
  | .throttling => .ret ⟨401, none⟩
  | .provisionedThroughputExceeded => .ret ⟨401, none⟩
  | .resourceNotFound => .ret ⟨404, none⟩
  | .invalidImageFormat => .ret ⟨406, none⟩
  | .serviceQuotaExceeded => .ret ⟨401, none⟩
  | .other => .raised .svcOther

/-- The `for record in records:` loop of lines 78-149.  `bucket` is the
`s3_bucket_name` computed once from `records[0]` at line 77.  Returns the
outcome together with the trace of collaborator calls issued.  When the
loop exhausts the records without a `return`, control falls off the end of
`lambda_handler` (there is no statement after the loop), so Python returns
the implicit `None`. -/
def processRecords (env : Env) (bucket : String) :
    List S3Record → Outcome × List CallEv
  | [] => (.retNone, [])
  | r :: rest =>
    match r.s3ObjectKey with
    | none => (.raised .keyError, [])
    | some rawKey =>
      let key := unquote_plus rawKey
      match env.meta bucket key with
      | .error e => (classifyExc e, [.metaFetch bucket key])
      | .ok md =>
        let object_metadata := stripMeta md
        match env.indexFaces bucket key with
        | .error e => (classifyExc e, [.metaFetch bucket key, .recognize bucket key])
        | .ok faces =>
          let metadata := stripMeta object_metadata
          let items := faces.map (fun fr => putItemOf fr bucket key metadata)
          let next := processRecords env bucket rest
          (next.1,
            .metaFetch bucket key :: .recognize bucket key ::
              (items.map CallEv.put ++ next.2))

/-- The function `lambda_handler(event, context)` of lines 56-149. -/
def lambda_handler (env : Env) (event : Event) : Outcome × List CallEv :=
  match event.Records with
  | none => (.ret ⟨500, none⟩, [])
  | some records =>
    match records with
    | [] => (.raised .indexError, [])
    | r0 :: _ =>
      match r0.eventSource with
      | none => (.raised .keyError, [])
      | some src =>
        if src ≠ "aws:s3" then (.ret ⟨401, none⟩, [])
        else
          match r0.eventName with
          | none => (.raised .keyError, [])
          | some _ =>
            match r0.s3BucketName with
            | none => (.raised .keyError, [])
            | some bucket => processRecords env bucket records

/-- The `put_item` items of a trace, in order. -/
def putsOf (tr : List CallEv) : List FaceFields :=
  tr.filterMap fun c =>
    match c with
    | .put item => some item
    | _ => none

/-- The bucket a collaborator call acted on: the bucket argument of a
metadata fetch or recognition call, or the `"bucket"` attribute of a
persisted item. -/
def CallEv.bucketOf : CallEv → Option String
  | .metaFetch b _ => some b
  | .recognize b _ => some b
  | .put item =>
    match item.get "bucket" with
    | some (.s b) => some b
    | _ => none

/-- The spec's response-code table for the nine named recognition failure
kinds (claim C6's mapping; the values at `invalidParameter` and `other` are
irrelevant — those two kinds are not among the nine). -/
def specCode : SvcExc → Nat
  | .invalidS3Object => 406
  | .imageTooLarge => 406
  | .invalidImageFormat => 406
  | .accessDenied => 403
  | .internalServerError => 500
  | .throttling => 401
  | .provisionedThroughputExceeded => 401
  | .serviceQuotaExceeded => 401
  | .resourceNotFound => 404
  | .invalidParameter => 200
  | .other => 0

/-- The nine named recognition failure kinds of the spec's taxonomy. -/
def nineFailures : List SvcExc :=
  [.invalidS3Object, .imageTooLarge, .invalidImageFormat, .accessDenied,
   .internalServerError, .throttling, .provisionedThroughputExceeded,
   .serviceQuotaExceeded, .resourceNotFound]

/-- The claim's reading of metadata-key resolution, following the spec's
words ("strips a fixed literal prefix from every metadata key name"):
remove one leading `"x-amz-meta-"` when the key starts with it, leaving the
remainder of the key name unchanged.  Stated for comparison with the
source-derived `stripMeta`. -/
def specStripPrefixOnly (k : String) : String :=
  if amzPat.isPrefixOf k.data then ⟨k.data.drop 11⟩ else k

/-- The claim's reading of the resolved metadata mapping: each original key
with only its prefix removed, mapped to the original value. -/
def specResolveMeta (d : List (String × String)) : List (String × String) :=
  d.map fun kv => (specStripPrefixOnly kv.1, kv.2)

/-- A record for which the try-block succeeds completely: the key path is
present, the metadata fetch succeeds and the recognition call succeeds. -/
def recordOK (env : Env) (bucket : String) (r : S3Record) : Prop :=
  ∃ rawKey md faces, r.s3ObjectKey = some rawKey ∧
    env.meta bucket (unquote_plus rawKey) = .ok md ∧
    env.indexFaces bucket (unquote_plus rawKey) = .ok faces

/-- An event whose sanity checks (lines 59-77) all pass, with `bucket` the
first record's bucket name. -/
def validHead (records : List S3Record) (bucket : String) : Prop :=
  ∃ r0 rest0 en, records = r0 :: rest0 ∧ r0.eventSource = some "aws:s3" ∧
    r0.eventName = some en ∧ r0.s3BucketName = some bucket

/-- The end-to-end scenario of the spec: a detected feature with confidence
`0.981`. -/
def faceA : FaceRecord :=
  ⟨.cons "FaceId" (.s "f1") (.cons "Confidence" (.fl 981 3) .nil)⟩

/-- The end-to-end scenario of the spec: a detected feature with confidence
`0.754`. -/
def faceB : FaceRecord :=
  ⟨.cons "FaceId" (.s "f2") (.cons "Confidence" (.fl 754 3) .nil)⟩

/-- A detected feature with no numeric attributes, for small scenarios. -/
def faceC : FaceRecord := ⟨.cons "FaceId" (.s "f") .nil⟩

/-- Environment of the end-to-end scenario: one metadata entry, recognition
finds `faceA` and `faceB`. -/
def envE2E : Env :=
  { meta := fun _ _ => .ok [("x-amz-meta-author", "alice")],
    indexFaces := fun _ _ => .ok [faceA, faceB],
    maxFaces := 10 }

/-- Environment in which recognition always reports the parameter-invalid
(no face detected) condition. -/
def envC2 : Env :=
  { meta := fun _ _ => .ok [("x-amz-meta-author", "alice")],
    indexFaces := fun _ _ => .error .invalidParameter,
    maxFaces := 10 }

/-- Environment in which recognition always raises `AccessDeniedException`. -/
def envC3 : Env :=
  { meta := fun _ _ => .ok [],
    indexFaces := fun _ _ => .error .accessDenied,
    maxFaces := 10 }

/-- Environment in which every metadata fetch succeeds with no entries and
recognition always finds exactly one face. -/
def envC5 : Env :=
  { meta := fun _ _ => .ok [],
    indexFaces := fun _ _ => .ok [faceC],
    maxFaces := 10 }

/-- Environment in which recognition always raises
`ImageTooLargeException`. -/
def envC6 : Env :=
  { meta := fun _ _ => .ok [],
    indexFaces := fun _ _ => .error .imageTooLarge,
    maxFaces := 10 }

/-- Environment whose stored object carries a metadata key containing the
literal `"x-amz-meta-"` in a non-prefix position. -/
def envC9 : Env :=
  { meta := fun _ _ => .ok [("a-x-amz-meta-b", "v")],
    indexFaces := fun _ _ => .ok [faceC],
    maxFaces := 10 }

/-- The record of the end-to-end scenario: bucket `b`, percent-encoded key
`img%2B1.jpg`. -/
def recE2E : S3Record :=
  ⟨some "aws:s3", some "ObjectCreated:Put", some "b", some "img%2B1.jpg"⟩

/-- First record of the two-bucket scenario (bucket `b1`). -/
def recC5a : S3Record :=
  ⟨some "aws:s3", some "ObjectCreated:Put", some "b1", some "k1"⟩

/-- Second record of the two-bucket scenario (bucket `b2`). -/
def recC5b : S3Record :=
  ⟨some "aws:s3", some "ObjectCreated:Put", some "b2", some "k2"⟩

/-- A record whose `eventSource` is not the storage-event source. -/
def recC8 : S3Record :=
  ⟨some "aws:sns", some "ObjectCreated:Put", some "b", some "k"⟩

/-- A simple valid record (bucket `b`, key `k`). -/
def recC9 : S3Record :=
  ⟨some "aws:s3", some "ObjectCreated:Put", some "b", some "k"⟩

/-- A record lacking the `['s3']['bucket']['name']` path. -/
def recC10a : S3Record :=
  ⟨some "aws:s3", some "ObjectCreated:Put", none, some "k"⟩

/-- A record lacking the `['s3']['object']['key']` path. -/
def recC10b : S3Record :=
  ⟨some "aws:s3", some "ObjectCreated:Put", some "b", none⟩

theorem lambda_handler_valid (env : Env) (records : List S3Record)
    (bucket : String) (hv : validHead records bucket) :
    lambda_handler env ⟨some records⟩ = processRecords env bucket records := by
  obtain ⟨r0, rest0, en, hrec, hsrc, hen, hb⟩ := hv
  subst hrec
  simp [lambda_handler, hsrc, hen, hb]

theorem processRecords_cons_ok (env : Env) (bucket : String) (r : S3Record)
    (rest : List S3Record) (rawKey : String)
    (md : List (String × String)) (faces : List FaceRecord)
    (hkey : r.s3ObjectKey = some rawKey)
    (hmeta : env.meta bucket (unquote_plus rawKey) = .ok md)
    (hidx : env.indexFaces bucket (unquote_plus rawKey) = .ok faces) :
    processRecords env bucket (r :: rest) =
      ((processRecords env bucket rest).1,
        .metaFetch bucket (unquote_plus rawKey) ::
          .recognize bucket (unquote_plus rawKey) ::
          ((faces.map fun fr =>
              CallEv.put (putItemOf fr bucket (unquote_plus rawKey)
                (stripMeta (stripMeta md)))) ++
            (processRecords env bucket rest).2)) := by
  simp [processRecords, hkey, hmeta, hidx, Function.comp]

theorem processRecords_append (env : Env) (bucket : String)
    (pre rs : List S3Record)
    (hpre : ∀ p ∈ pre, recordOK env bucket p) :
    processRecords env bucket (pre ++ rs) =
      ((processRecords env bucket rs).1,
        (processRecords env bucket pre).2 ++ (processRecords env bucket rs).2) := by
  induction pre with
  | nil => simp [processRecords]
  | cons p pre ih =>
    obtain ⟨rawKey, md, faces, hkey, hmeta, hidx⟩ := hpre p (by simp)
    have hrest : ∀ q ∈ pre, recordOK env bucket q := fun q hq => hpre q (by simp [hq])
    rw [List.cons_append,
      processRecords_cons_ok env bucket p (pre ++ rs) rawKey md faces hkey hmeta hidx,
      processRecords_cons_ok env bucket p pre rawKey md faces hkey hmeta hidx,
      ih hrest]
    simp

theorem putsOf_append (a b : List CallEv) : putsOf (a ++ b) = putsOf a ++ putsOf b := by
  simp [putsOf]

theorem FaceFields.get_set_self : ∀ (fs : FaceFields) (k : String) (v : FaceVal),
    (fs.set k v).get k = some v
  | .nil, k, v => by simp [FaceFields.set, FaceFields.get]
  | .cons k' v' t, k, v => by
    by_cases h : k' = k <;>
      simp [FaceFields.set, FaceFields.get, h, FaceFields.get_set_self t k v]

theorem FaceFields.get_set_ne : ∀ (fs : FaceFields) (k a : String) (v : FaceVal),
    a ≠ k → (fs.set k v).get a = fs.get a
  | .nil, k, a, v, hne => by simp [FaceFields.set, FaceFields.get, Ne.symm hne]
  | .cons k' v' t, k, a, v, hne => by
    by_cases h : k' = k
    · subst h
      simp [FaceFields.set, FaceFields.get, Ne.symm hne]
    · by_cases h2 : k' = a <;>
        simp [FaceFields.set, FaceFields.get, h, h2, hne,
          FaceFields.get_set_ne t k a v hne]

theorem FaceFields.get_toDec : ∀ (fs : FaceFields) (k : String),
    fs.toDec.get k = (fs.get k).map FaceVal.toDec
  | .nil, _ => rfl
  | .cons k' v t, k => by
    by_cases h : k' = k <;>
      simp [FaceFields.toDec, FaceFields.get, h, FaceFields.get_toDec t k]

mutual
theorem FaceVal.toDec_noFloat : ∀ (v : FaceVal), v.toDec.noFloat = true
  | .s _ => rfl
  | .i _ => rfl
  | .fl _ _ => rfl
  | .dec _ _ => rfl
  | .obj fs => FaceFields.toDecFields_noFloat fs
theorem FaceFields.toDecFields_noFloat : ∀ (fs : FaceFields), fs.toDec.noFloat = true
  | .nil => rfl
  | .cons _ v t => by
    simp only [FaceFields.toDec, FaceFields.noFloat, FaceVal.toDec_noFloat v,
      FaceFields.toDecFields_noFloat t, Bool.and_self]
end

theorem metaToFields_toDec : ∀ (m : List (String × String)),
    (metaToFields m).toDec = metaToFields m
  | [] => rfl
  | (k, v) :: rest => by
    simp [metaToFields, FaceFields.toDec, FaceVal.toDec, metaToFields_toDec rest]

theorem putItemOf_get_bucket (fr : FaceRecord) (bucket key : String)
    (metadata : List (String × String)) :
    (putItemOf fr bucket key metadata).get "bucket" = some (.s bucket) := by
  simp [putItemOf, FaceFields.get_toDec,
    FaceFields.get_set_ne _ "metadata" "bucket" _ (by decide),
    FaceFields.get_set_ne _ "key" "bucket" _ (by decide),
    FaceFields.get_set_self, FaceVal.toDec]

theorem putItemOf_get_key (fr : FaceRecord) (bucket key : String)
    (metadata : List (String × String)) :
    (putItemOf fr bucket key metadata).get "key" = some (.s key) := by
  simp [putItemOf, FaceFields.get_toDec,
    FaceFields.get_set_ne _ "metadata" "key" _ (by decide),
    FaceFields.get_set_self, FaceVal.toDec]

theorem putItemOf_get_metadata (fr : FaceRecord) (bucket key : String)
    (metadata : List (String × String)) :
    (putItemOf fr bucket key metadata).get "metadata" =
      some (.obj (metaToFields metadata)) := by
  simp [putItemOf, FaceFields.get_toDec, FaceFields.get_set_self, FaceVal.toDec,
    metaToFields_toDec]

theorem putItemOf_get_other (fr : FaceRecord) (bucket key : String)
    (metadata : List (String × String)) (a : String)
    (h1 : a ≠ "bucket") (h2 : a ≠ "key") (h3 : a ≠ "metadata") :
    (putItemOf fr bucket key metadata).get a = (fr.Face.get a).map FaceVal.toDec := by
  simp [putItemOf, FaceFields.get_toDec,
    FaceFields.get_set_ne _ "metadata" a _ h3,
    FaceFields.get_set_ne _ "key" a _ h2,
    FaceFields.get_set_ne _ "bucket" a _ h1]

theorem putItemOf_noFloat (fr : FaceRecord) (bucket key : String)
    (metadata : List (String × String)) :
    (putItemOf fr bucket key metadata).noFloat = true := by
  simp [putItemOf, FaceFields.toDecFields_noFloat]

/-- C1 (code bug): for every notification whose records all pass the sanity
checks and are all processed without a classified failure (each record's
metadata fetch and recognition call succeed), `lambda_handler` does NOT
return the structured outcome `{'statusCode': 200, 'data': None}` the spec
requires: the source has no return statement after the record loop, so the
all-success path falls off the end of the function and returns the implicit
Python `None`. -/
theorem c1_all_ok_returns_python_none (env : Env) (records : List S3Record)
    (bucket : String) (hv : validHead records bucket)
    (hall : ∀ r ∈ records, recordOK env bucket r) :
    (lambda_handler env ⟨some records⟩).1 = .retNone := by
  rw [lambda_handler_valid env records bucket hv]
  have h := processRecords_append env bucket records [] hall
  rw [List.append_nil] at h
  rw [h]
  simp [processRecords]

/-- C1 witness: the end-to-end scenario — one record, bucket `b`, key
`img%2B1.jpg`, recognition returns two features, both persisted — ends with
the implicit Python `None`, which is not the structured outcome
`{'statusCode': 200, 'data': None}`. -/
theorem c1_all_ok_returns_python_none_witness :
    (lambda_handler envE2E ⟨some [recE2E]⟩).1 = .retNone ∧
      Outcome.retNone ≠ .ret ⟨200, none⟩ :=
  ⟨c1_all_ok_returns_python_none envE2E [recE2E] "b"
    ⟨recE2E, [], "ObjectCreated:Put", rfl, rfl, rfl, rfl⟩
    (by
      intro r hr
      simp only [List.mem_singleton] at hr
      subst hr
      exact ⟨"img%2B1.jpg", [("x-amz-meta-author", "alice")], [faceA, faceB],
        rfl, rfl, rfl⟩),
    by decide⟩

/-- C2: when the recognition service reports the parameter-invalid condition
(no face detected) for the records of a valid notification, `lambda_handler`
treats it as success: it returns status code 200 and issues zero store
writes. -/
theorem c2_no_face_returns_200_no_writes (env : Env) (records : List S3Record)
    (bucket : String) (hv : validHead records bucket)
    (hall : ∀ r ∈ records, ∃ rawKey md, r.s3ObjectKey = some rawKey ∧
      env.meta bucket (unquote_plus rawKey) = .ok md ∧
      env.indexFaces bucket (unquote_plus rawKey) = .error .invalidParameter) :
    (lambda_handler env ⟨some records⟩).1 = .ret ⟨200, none⟩ ∧
      putsOf (lambda_handler env ⟨some records⟩).2 = [] := by
  obtain ⟨r0, rest0, en, hrec, hsrc, hen, hb⟩ := hv
  subst hrec
  obtain ⟨rawKey, md, hkey, hmeta, hidx⟩ := hall r0 (by simp)
  rw [lambda_handler_valid env (r0 :: rest0) bucket
    ⟨r0, rest0, en, rfl, hsrc, hen, hb⟩]
  simp [processRecords, hkey, hmeta, hidx, classifyExc, putsOf]

/-- C2 witness: a one-record notification whose recognition call raises
`InvalidParameterException` returns code 200 with no store writes. -/
theorem c2_no_face_returns_200_no_writes_witness :
    (lambda_handler envC2 ⟨some [recE2E]⟩).1 = .ret ⟨200, none⟩ ∧
      putsOf (lambda_handler envC2 ⟨some [recE2E]⟩).2 = [] :=
  c2_no_face_returns_200_no_writes envC2 [recE2E] "b"
    ⟨recE2E, [], "ObjectCreated:Put", rfl, rfl, rfl, rfl⟩
    (by
      intro r hr
      simp only [List.mem_singleton] at hr
      subst hr
      exact ⟨"img%2B1.jpg", [("x-amz-meta-author", "alice")], rfl, rfl, rfl⟩)

/-- C3: an `AccessDenied` failure raised at the storage layer (the metadata
fetch) or at the recognition layer while processing a record of a valid
notification aborts processing and makes `lambda_handler` return status
code 403 rather than re-raise. -/
theorem c3_access_denied_returns_403 (env : Env) (pre rest : List S3Record)
    (r : S3Record) (bucket rawKey : String)
    (hv : validHead (pre ++ r :: rest) bucket)
    (hpre : ∀ p ∈ pre, recordOK env bucket p)
    (hkey : r.s3ObjectKey = some rawKey)
    (hfail : env.meta bucket (unquote_plus rawKey) = .error .accessDenied ∨
      ∃ md, env.meta bucket (unquote_plus rawKey) = .ok md ∧
        env.indexFaces bucket (unquote_plus rawKey) = .error .accessDenied) :
    (lambda_handler env ⟨some (pre ++ r :: rest)⟩).1 = .ret ⟨403, none⟩ := by
  rw [lambda_handler_valid env _ bucket hv,
    processRecords_append env bucket pre (r :: rest) hpre]
  rcases hfail with hm | ⟨md, hm, hi⟩
  · simp [processRecords, hkey, hm, classifyExc]
  · simp [processRecords, hkey, hm, hi, classifyExc]

/-- C3 witness: a one-record notification whose recognition call raises
`AccessDeniedException` returns status code 403. -/
theorem c3_access_denied_returns_403_witness :
    (lambda_handler envC3 ⟨some [recC9]⟩).1 = .ret ⟨403, none⟩ :=
  c3_access_denied_returns_403 envC3 [] [] recC9 "b" "k"
    ⟨recC9, [], "ObjectCreated:Put", rfl, rfl, rfl, rfl⟩
    (by simp) rfl (Or.inr ⟨[], rfl, rfl⟩)

/-- C4 counterexample: on a notification whose `Records` is present but is
the empty list, `lambda_handler` does not terminate normally — the
subscript `records[0]["eventSource"]` raises an uncaught `IndexError`,
refuting the claim that an empty record list is a no-op. -/
theorem c4_empty_records_counterexample :
    (lambda_handler envE2E ⟨some []⟩).1 = .raised .indexError := rfl

/-- C4 amended: for every environment, a notification whose `Records` key is
present but holds an empty list makes `lambda_handler` raise an uncaught
`IndexError` (from `records[0]`) before invoking recognition or the store;
only a missing `Records` key is treated as a guarded no-op (code 500). -/
theorem c4_empty_records_raises (env : Env) :
    lambda_handler env ⟨some []⟩ = (.raised .indexError, []) := rfl

/-- C8: a notification whose first record's `eventSource` is not `aws:s3`
makes `lambda_handler` return status code 401 with no metadata fetch, no
recognition call and no store write (the trace is empty for every
environment). -/
theorem c8_wrong_source_returns_401 (env : Env) (r0 : S3Record)
    (rest : List S3Record) (src : String)
    (hsrc : r0.eventSource = some src) (h : src ≠ "aws:s3") :
    lambda_handler env ⟨some (r0 :: rest)⟩ = (.ret ⟨401, none⟩, []) := by
  simp [lambda_handler, hsrc, h]

/-- C8 witness: a record declaring `eventSource` `aws:sns` is rejected with
code 401 and an empty call trace. -/
theorem c8_wrong_source_returns_401_witness :
    lambda_handler envE2E ⟨some [recC8]⟩ = (.ret ⟨401, none⟩, []) :=
  c8_wrong_source_returns_401 envE2E recC8 [] "aws:sns" rfl (by decide)

/-- C10: structural field accesses happen outside the exception-handling
region, so a notification with a record lacking them raises an uncaught
exception instead of returning a status code: (1) when the first record of
an otherwise-valid notification lacks the `['s3']['bucket']['name']` path,
`lambda_handler` raises `KeyError` with no collaborator call; (2) when a
record reached after fully-processed predecessors lacks the
`['s3']['object']['key']` path, `lambda_handler` raises `KeyError`. -/
theorem c10_missing_fields_raise :
    (∀ (env : Env) (r0 : S3Record) (rest : List S3Record) (en : String),
      r0.eventSource = some "aws:s3" → r0.eventName = some en →
      r0.s3BucketName = none →
      lambda_handler env ⟨some (r0 :: rest)⟩ = (.raised .keyError, [])) ∧
    (∀ (env : Env) (pre rest : List S3Record) (r : S3Record) (bucket : String),
      validHead (pre ++ r :: rest) bucket →
      (∀ p ∈ pre, recordOK env bucket p) → r.s3ObjectKey = none →
      (lambda_handler env ⟨some (pre ++ r :: rest)⟩).1 = .raised .keyError) := by
  constructor
  · intro env r0 rest en hsrc hen hb
    simp [lambda_handler, hsrc, hen, hb]
  · intro env pre rest r bucket hv hpre hkey
    rw [lambda_handler_valid env _ bucket hv,
      processRecords_append env bucket pre (r :: rest) hpre]
    simp [processRecords, hkey]

/-- C10 witness: a record missing the bucket path raises `KeyError`, and a
record missing the key path raises `KeyError`. -/
theorem c10_missing_fields_raise_witness :
    lambda_handler envE2E ⟨some [recC10a]⟩ = (.raised .keyError, []) ∧
      (lambda_handler envE2E ⟨some [recC10b]⟩).1 = .raised .keyError :=
  ⟨c10_missing_fields_raise.1 envE2E recC10a [] "ObjectCreated:Put" rfl rfl rfl,
    c10_missing_fields_raise.2 envE2E [] [] recC10b "b"
      ⟨recC10b, [], "ObjectCreated:Put", rfl, rfl, rfl, rfl⟩ (by simp) rfl⟩

theorem processRecords_bucketOf (env : Env) (bucket : String) :
    ∀ (rs : List S3Record), ∀ c ∈ (processRecords env bucket rs).2,
      c.bucketOf = some bucket
  | [] => by simp [processRecords]
  | r :: rest => by
    cases hkey : r.s3ObjectKey with
    | none => simp [processRecords, hkey]
    | some rawKey =>
      cases hmeta : env.meta bucket (unquote_plus rawKey) with
      | error e =>
        simp [processRecords, hkey, hmeta, CallEv.bucketOf]
      | ok md =>
        cases hidx : env.indexFaces bucket (unquote_plus rawKey) with
        | error e =>
          simp [processRecords, hkey, hmeta, hidx, CallEv.bucketOf]
        | ok faces =>
          intro c hc
          rw [processRecords_cons_ok env bucket r rest rawKey md faces
            hkey hmeta hidx] at hc
          simp only [List.mem_cons, List.mem_append, List.mem_map] at hc
          rcases hc with h | h | ⟨fr, _, h⟩ | h
          · subst h; rfl
          · subst h; rfl
          · subst h
            simp [CallEv.bucketOf, putItemOf_get_bucket]
          · exact processRecords_bucketOf env bucket rest c h

/-- C5 counterexample: with two records in different buckets (`b1` and
`b2`), every collaborator call — including the second record's metadata
fetch, recognition invocation and persisted record — uses the first
record's bucket `b1`; the persisted record for record 2 carries bucket
`b1`, not its own declared bucket `b2`. -/
theorem c5_per_record_bucket_counterexample :
    recC5b.s3BucketName = some "b2" ∧
      (lambda_handler envC5 ⟨some [recC5a, recC5b]⟩).2 =
        [.metaFetch "b1" "k1", .recognize "b1" "k1",
          .put (putItemOf faceC "b1" "k1" []),
          .metaFetch "b1" "k2", .recognize "b1" "k2",
          .put (putItemOf faceC "b1" "k2" [])] ∧
      ((putsOf (lambda_handler envC5 ⟨some [recC5a, recC5b]⟩).2).getD 1
          .nil).get "bucket" = some (.s "b1") ∧
      ("b1" : String) ≠ "b2" :=
  ⟨rfl, rfl, rfl, by decide⟩

/-- C5 amended: every record of a valid notification is processed with the
FIRST record's bucket: each record's metadata fetch, recognition invocation
and persisted records all use `records[0]`'s bucket (paired with that
record's own key), not the record's own bucket. -/
theorem c5_first_bucket_used_for_all (env : Env) (records : List S3Record)
    (bucket : String) (hv : validHead records bucket) :
    ∀ c ∈ (lambda_handler env ⟨some records⟩).2, c.bucketOf = some bucket := by
  rw [lambda_handler_valid env records bucket hv]
  exact processRecords_bucketOf env bucket records

/-- C5 witness: in the two-bucket scenario the second record's metadata
fetch used bucket `b1`. -/
theorem c5_first_bucket_used_for_all_witness :
    CallEv.bucketOf (.metaFetch "b1" "k2") = some "b1" :=
  c5_first_bucket_used_for_all envC5 [recC5a, recC5b] "b1"
    ⟨recC5a, [recC5b], "ObjectCreated:Put", rfl, rfl, rfl, rfl⟩
    (.metaFetch "b1" "k2") (by decide)

/-- C6: when the recognition call for a record (reached after
fully-processed predecessors) raises any of the nine named failure kinds,
`lambda_handler` returns the documented response code for that kind
(`specCode`), the trace stops at that record's recognition call (no
remaining record is attempted), and no store write is issued for that
object (the writes are exactly those of the predecessor records). -/
theorem c6_nine_failure_codes (env : Env) (pre rest : List S3Record)
    (r : S3Record) (bucket rawKey : String) (k : SvcExc)
    (md : List (String × String))
    (hv : validHead (pre ++ r :: rest) bucket)
    (hk : k ∈ nineFailures)
    (hpre : ∀ p ∈ pre, recordOK env bucket p)
    (hkey : r.s3ObjectKey = some rawKey)
    (hmeta : env.meta bucket (unquote_plus rawKey) = .ok md)
    (hidx : env.indexFaces bucket (unquote_plus rawKey) = .error k) :
    (lambda_handler env ⟨some (pre ++ r :: rest)⟩).1 =
        .ret ⟨specCode k, none⟩ ∧
      (lambda_handler env ⟨some (pre ++ r :: rest)⟩).2 =
        (processRecords env bucket pre).2 ++
          [.metaFetch bucket (unquote_plus rawKey),
            .recognize bucket (unquote_plus rawKey)] ∧
      putsOf (lambda_handler env ⟨some (pre ++ r :: rest)⟩).2 =
        putsOf (processRecords env bucket pre).2 := by
  have hclass : classifyExc k = .ret ⟨specCode k, none⟩ := by
    fin_cases hk <;> rfl
  rw [lambda_handler_valid env _ bucket hv,
    processRecords_append env bucket pre (r :: rest) hpre]
  refine ⟨?_, ?_, ?_⟩
  · simp [processRecords, hkey, hmeta, hidx, hclass]
  · simp [processRecords, hkey, hmeta, hidx]
  · simp [processRecords, hkey, hmeta, hidx, putsOf_append, putsOf]

/-- C6 witness: a one-record notification whose recognition call raises
`ImageTooLargeException` returns status code 406 with no store writes. -/
theorem c6_nine_failure_codes_witness :
    (lambda_handler envC6 ⟨some [recC9]⟩).1 = .ret ⟨406, none⟩ ∧
      (lambda_handler envC6 ⟨some [recC9]⟩).2 =
        (processRecords envC6 "b" []).2 ++
          [.metaFetch "b" "k", .recognize "b" "k"] ∧
      putsOf (lambda_handler envC6 ⟨some [recC9]⟩).2 =
        putsOf (processRecords envC6 "b" []).2 :=
  c6_nine_failure_codes envC6 [] [] recC9 "b" "k" .imageTooLarge []
    ⟨recC9, [], "ObjectCreated:Put", rfl, rfl, rfl, rfl⟩
    (by decide) (by simp) rfl rfl rfl

/-- C7: for a valid one-record notification whose recognition result
contains `K` detected features (`K` at most the configured maximum),
exactly `K` store writes are issued — one per feature, in order — and each
written item carries the record's bucket, its decoded object key and the
resolved metadata mapping, contains no float (every numeric field is the
fixed-point `Decimal` of the original literal), and copies every feature
attribute unchanged up to the float-to-`Decimal` conversion. -/
theorem c7_k_features_k_writes (env : Env) (r : S3Record)
    (bucket rawKey en : String) (md : List (String × String))
    (faces : List FaceRecord) (K : Nat)
    (hsrc : r.eventSource = some "aws:s3") (hen : r.eventName = some en)
    (hb : r.s3BucketName = some bucket)
    (hkey : r.s3ObjectKey = some rawKey)
    (hmeta : env.meta bucket (unquote_plus rawKey) = .ok md)
    (hidx : env.indexFaces bucket (unquote_plus rawKey) = .ok faces)
    (hK : faces.length = K) (hmax : K ≤ env.maxFaces) :
    putsOf (lambda_handler env ⟨some [r]⟩).2 =
        faces.map (fun fr => putItemOf fr bucket (unquote_plus rawKey)
          (stripMeta (stripMeta md))) ∧
      (putsOf (lambda_handler env ⟨some [r]⟩).2).length = K ∧
      (∀ item ∈ putsOf (lambda_handler env ⟨some [r]⟩).2,
        item.get "bucket" = some (.s bucket) ∧
        item.get "key" = some (.s (unquote_plus rawKey)) ∧
        item.get "metadata" =
          some (.obj (metaToFields (stripMeta (stripMeta md)))) ∧
        item.noFloat = true) ∧
      ∀ fr ∈ faces, ∀ a, a ≠ "bucket" → a ≠ "key" → a ≠ "metadata" →
        (putItemOf fr bucket (unquote_plus rawKey)
            (stripMeta (stripMeta md))).get a =
          (fr.Face.get a).map FaceVal.toDec := by
  have hv : validHead [r] bucket := ⟨r, [], en, rfl, hsrc, hen, hb⟩
  rw [lambda_handler_valid env [r] bucket hv,
    processRecords_cons_ok env bucket r [] rawKey md faces hkey hmeta hidx]
  have hputs :
      putsOf (CallEv.metaFetch bucket (unquote_plus rawKey) ::
          CallEv.recognize bucket (unquote_plus rawKey) ::
          ((faces.map fun fr =>
              CallEv.put (putItemOf fr bucket (unquote_plus rawKey)
                (stripMeta (stripMeta md)))) ++
            (processRecords env bucket []).2)) =
        faces.map (fun fr => putItemOf fr bucket (unquote_plus rawKey)
          (stripMeta (stripMeta md))) := by
    simp only [putsOf, processRecords, List.append_nil, List.filterMap_cons,
      List.filterMap_map]
    exact congrFun (List.filterMap_eq_map fun fr =>
      putItemOf fr bucket (unquote_plus rawKey) (stripMeta (stripMeta md))) faces
  refine ⟨hputs, ?_, ?_, ?_⟩
  · rw [hputs]
    simp [hK]
  · intro item hitem
    rw [hputs] at hitem
    simp only [List.mem_map] at hitem
    obtain ⟨fr, _, rfl⟩ := hitem
    exact ⟨putItemOf_get_bucket fr bucket (unquote_plus rawKey) _,
      putItemOf_get_key fr bucket (unquote_plus rawKey) _,
      putItemOf_get_metadata fr bucket (unquote_plus rawKey) _,
      putItemOf_noFloat fr bucket (unquote_plus rawKey) _⟩
  · intro fr _ a h1 h2 h3
    exact putItemOf_get_other fr bucket (unquote_plus rawKey) _ a h1 h2 h3

/-- C7 witness: in the end-to-end scenario the two detected features yield
exactly two writes whose `Confidence` fields are the fixed-point values
`0.981` and `0.754`. -/
theorem c7_k_features_k_writes_witness :
    (putsOf (lambda_handler envE2E ⟨some [recE2E]⟩).2).length = 2 ∧
      ((putsOf (lambda_handler envE2E ⟨some [recE2E]⟩).2).getD 0
          .nil).get "Confidence" = some (.dec 981 3) ∧
      ((putsOf (lambda_handler envE2E ⟨some [recE2E]⟩).2).getD 1
          .nil).get "Confidence" = some (.dec 754 3) :=
  ⟨(c7_k_features_k_writes envE2E recE2E "b" "img%2B1.jpg" "ObjectCreated:Put"
      [("x-amz-meta-author", "alice")] [faceA, faceB] 2
      rfl rfl rfl rfl rfl rfl rfl (by decide)).2.1,
    rfl, rfl⟩

theorem dictInsert_not_mem : ∀ (acc : List (String × String)) (k v : String),
    k ∉ acc.map Prod.fst → dictInsert acc k v = acc ++ [(k, v)]
  | [], _, _, _ => rfl
  | (k', v') :: rest, k, v, h => by
    simp only [List.map_cons, List.mem_cons, not_or] at h
    simp [dictInsert, Ne.symm h.1, dictInsert_not_mem rest k v h.2]

theorem foldl_dictInsert_eq_map (d : List (String × String)) :
    ∀ acc : List (String × String),
      (d.map fun kv => pyReplaceAmz kv.1).Nodup →
      (∀ kv ∈ d, pyReplaceAmz kv.1 ∉ acc.map Prod.fst) →
      d.foldl (fun acc kv => dictInsert acc (pyReplaceAmz kv.1) kv.2) acc =
        acc ++ d.map fun kv => (pyReplaceAmz kv.1, kv.2) := by
  induction d with
  | nil => intro acc _ _; simp
  | cons kv d ih =>
    intro acc hnodup hdisj
    simp only [List.map_cons, List.nodup_cons] at hnodup
    simp only [List.foldl_cons]
    rw [dictInsert_not_mem acc (pyReplaceAmz kv.1) kv.2 (hdisj kv (by simp))]
    rw [ih (acc ++ [(pyReplaceAmz kv.1, kv.2)]) hnodup.2 ?_]
    · simp
    · intro kv' hkv'
      simp only [List.map_append, List.mem_append, List.map_cons,
        List.map_nil, List.mem_singleton, not_or]
      refine ⟨hdisj kv' (by simp [hkv']), ?_⟩
      intro hcontra
      exact hnodup.1 (hcontra ▸ List.mem_map_of_mem (fun x => pyReplaceAmz x.1) hkv')

theorem stripMeta_eq_map (d : List (String × String))
    (h : (d.map fun kv => pyReplaceAmz kv.1).Nodup) :
    stripMeta d = d.map fun kv => (pyReplaceAmz kv.1, kv.2) := by
  have := foldl_dictInsert_eq_map d [] h (by simp)
  simpa [stripMeta] using this

/-- C9 counterexample: a stored object with the metadata key
`a-x-amz-meta-b` (the literal occurs mid-key, not as a prefix).  The
resolved metadata attached to the persisted record maps `a-b` — the key
with the occurrence deleted — to the value, not the original key name
`a-x-amz-meta-b` that prefix-only stripping (the claim's reading,
`specResolveMeta`) would leave unchanged. -/
theorem c9_prefix_strip_counterexample :
    ((putsOf (lambda_handler envC9 ⟨some [recC9]⟩).2).getD 0 .nil).get
        "metadata" = some (.obj (.cons "a-b" (.s "v") .nil)) ∧
      specResolveMeta [("a-x-amz-meta-b", "v")] = [("a-x-amz-meta-b", "v")] ∧
      FaceFields.cons "a-b" (.s "v") .nil ≠
        metaToFields (specResolveMeta [("a-x-amz-meta-b", "v")]) :=
  ⟨rfl, rfl, by decide⟩

/-- C9 amended: the metadata attached to persisted records is obtained by
deleting every occurrence of the literal `"x-amz-meta-"` from each key name
(Python `str.replace`, applied twice in succession — lines 82 and 106), not
by stripping a leading prefix only; each rewritten key maps to the
original value (stated under the assumption that the rewritten key names do
not collide). -/
theorem c9_metadata_replace_all_twice (env : Env) (r : S3Record)
    (bucket rawKey en : String) (d : List (String × String))
    (faces : List FaceRecord)
    (hsrc : r.eventSource = some "aws:s3") (hen : r.eventName = some en)
    (hb : r.s3BucketName = some bucket)
    (hkey : r.s3ObjectKey = some rawKey)
    (hmeta : env.meta bucket (unquote_plus rawKey) = .ok d)
    (hidx : env.indexFaces bucket (unquote_plus rawKey) = .ok faces)
    (hnodup : (d.map fun kv => pyReplaceAmz (pyReplaceAmz kv.1)).Nodup) :
    ∀ item ∈ putsOf (lambda_handler env ⟨some [r]⟩).2,
      item.get "metadata" = some (.obj (metaToFields
        (d.map fun kv => (pyReplaceAmz (pyReplaceAmz kv.1), kv.2)))) := by
  have h1 : (d.map fun kv => pyReplaceAmz kv.1).Nodup := by
    refine List.Nodup.of_map pyReplaceAmz ?_
    simpa [List.map_map, Function.comp] using hnodup
  have hsm : stripMeta d = d.map fun kv => (pyReplaceAmz kv.1, kv.2) :=
    stripMeta_eq_map d h1
  have h2 : ((stripMeta d).map fun kv => pyReplaceAmz kv.1).Nodup := by
    rw [hsm]
    simpa [List.map_map, Function.comp] using hnodup
  have hsm2 : stripMeta (stripMeta d) =
      d.map fun kv => (pyReplaceAmz (pyReplaceAmz kv.1), kv.2) := by
    rw [stripMeta_eq_map (stripMeta d) h2, hsm]
    simp [List.map_map, Function.comp]
  have hv : validHead [r] bucket := ⟨r, [], en, rfl, hsrc, hen, hb⟩
  rw [lambda_handler_valid env [r] bucket hv,
    processRecords_cons_ok env bucket r [] rawKey d faces hkey hmeta hidx]
  intro item hitem
  simp only [putsOf, processRecords, List.append_nil, List.filterMap_cons,
    List.filterMap_map, List.mem_filterMap] at hitem
  obtain ⟨fr, _, hfr⟩ := hitem
  simp only [Function.comp] at hfr
  obtain rfl : putItemOf fr bucket (unquote_plus rawKey)
      (stripMeta (stripMeta d)) = item := by
    simpa using hfr
  rw [putItemOf_get_metadata, hsm2]

/-- C9 amended witness: in the end-to-end scenario the persisted record's
metadata field maps `author` (the key `x-amz-meta-author` with the literal
removed) to `alice`. -/
theorem c9_metadata_replace_all_twice_witness :
    FaceFields.get
        ((putsOf (lambda_handler envE2E ⟨some [recE2E]⟩).2).getD 0 .nil)
        "metadata" =
      some (.obj (metaToFields
        ([("x-amz-meta-author", "alice")].map fun kv =>
          (pyReplaceAmz (pyReplaceAmz kv.1), kv.2)))) :=
  c9_metadata_replace_all_twice envE2E recE2E "b" "img%2B1.jpg"
    "ObjectCreated:Put" [("x-amz-meta-author", "alice")] [faceA, faceB]
    rfl rfl rfl rfl rfl rfl (by decide)
    ((putsOf (lambda_handler envE2E ⟨some [recE2E]⟩).2).getD 0 .nil)
    (by decide)
